import Mathlib

/-!
Verification of the central authorization core of the `openclaw-feishu` plugin.

The definitions below are a shallow embedding of the TypeScript sources:
  * `src/identity.ts`  — identity registry, level lookup, identity claims
  * `src/gatekeeper.ts` — permission matrix, operation classification
  * `src/reporter.ts`  — master notifications
  * `src/central-auth.ts` — the `CentralAuthManager` message pipeline, the
    pending-request tracker and the `AuditLogger`

JavaScript `Map`s and plain objects keyed by strings are embedded as
association lists with unique keys; JS truthiness of strings (`""` is falsy)
and of optional values is made explicit at each use site.  Side effects
(`Date.now()`, `Math.random()`, the file system, the Feishu name-lookup API)
are passed in as explicit parameters or threaded state.
-/

set_option maxHeartbeats 1000000

/-! ## JS map embedding (JS `Map` / plain object with string keys) -/

/-- `Map.get` / `obj[key]`: first entry with the given key. -/
def mapGet {α : Type} (m : List (String × α)) (k : String) : Option α :=
  (m.find? (fun p => p.1 == k)).map (fun p => p.2)

/-- `Map.set`: update the value in place when the key exists, else append. -/
def mapSet {α : Type} : List (String × α) → String → α → List (String × α)
  | [], k, v => [(k, v)]
  | (k', v') :: rest, k, v =>
    if k' == k then (k, v) :: rest else (k', v') :: mapSet rest k v

/-- `Map.delete`: remove the entry with the given key (keys are unique in a JS
`Map`, so filtering is the same as removing the one entry). -/
def mapDelete {α : Type} (m : List (String × α)) (k : String) : List (String × α) :=
  m.filter (fun p => p.1 != k)

/-! ## Data model (`src/identity.ts`) -/

/-- `PermissionLevel = "L1" | "L2" | "L3" | "L0"` (identity.ts). -/
inductive PermissionLevel where
  | L1 | L2 | L3 | L0
  deriving DecidableEq, Repr

/-- Rendering of a `PermissionLevel` back to its TS string literal. -/
def levelToString : PermissionLevel → String
  | .L1 => "L1" | .L2 => "L2" | .L3 => "L3" | .L0 => "L0"

/-- `VerifiedUser` (identity.ts).  `status` is kept as a string because the
YAML file may hold arbitrary text; the code only ever compares it with
`"active"`. -/
structure VerifiedUser where
  name : String
  level : PermissionLevel
  department : Option String := none
  verified_at : String := ""
  status : String := "active"
  model : Option String := none
  systemPrompt : Option String := none
  deriving DecidableEq, Repr

/-- `PendingVerification` (identity.ts). -/
structure PendingVerification where
  request_id : String
  author_id : String
  claimed_name : String
  channel : String
  session_key : String
  submitted_at : String
  deriving DecidableEq, Repr

/-- `RejectedClaim` (identity.ts). -/
structure RejectedClaim where
  author_id : String
  claimed_name : String
  reason : String
  rejected_at : String
  deriving DecidableEq, Repr

/-- `IdentityMap` (identity.ts).  `verified_users` is a YAML mapping
(string-keyed object), embedded as an association list in file order. -/
structure IdentityMap where
  verified_users : List (String × VerifiedUser) := []
  pending_verifications : List PendingVerification := []
  rejected_claims : List RejectedClaim := []
  deriving DecidableEq, Repr

/-- `getUserLevel` (identity.ts):
`if (!identityMap) return "L0"; const user = identityMap.verified_users[openId];
if (!user || user.status !== "active") return "L0"; return user.level;` -/
def getUserLevel (identityMap : Option IdentityMap) (openId : String) : PermissionLevel :=
  match identityMap with
  | none => .L0
  | some m =>
    match mapGet m.verified_users openId with
    | none => .L0
    | some user => if user.status != "active" then .L0 else user.level

/-- `getUserInfo` (identity.ts): `identityMap.verified_users[openId] ?? null`. -/
def getUserInfo (identityMap : Option IdentityMap) (openId : String) : Option VerifiedUser :=
  match identityMap with
  | none => none
  | some m => mapGet m.verified_users openId

/-- `isNewUser` (identity.ts). -/
def isNewUser (identityMap : Option IdentityMap) (openId : String) : Bool :=
  match identityMap with
  | none => true
  | some m => (mapGet m.verified_users openId).isNone

/-! ## Identity-claim extraction (`src/identity.ts`)

`extractIdentityClaim` tests `message.trim()` against
`/^我是\s*(.+)$/i`, `/^我叫\s*(.+)$/i`, `/^我的名字是\s*(.+)$/i` in order and
returns `match[1].trim()`.  The JS regex semantics are embedded exactly:
`\s` is JS whitespace, `.` excludes the four line terminators, `$` anchors at
the end of the input, and `\s*` backtracks so that `(.+)` can still take one
trailing whitespace character. -/

/-- JS regex `\s` / `String.prototype.trim` whitespace class. -/
def isJsSpace (c : Char) : Bool :=
  c == ' ' || c == '\t' || c == '\n' || c == '\r' ||
  c.toNat == 0x0b || c.toNat == 0x0c || c.toNat == 0xa0 || c.toNat == 0xfeff ||
  c.toNat == 0x1680 || (0x2000 ≤ c.toNat && c.toNat ≤ 0x200a) ||
  c.toNat == 0x2028 || c.toNat == 0x2029 || c.toNat == 0x205f || c.toNat == 0x3000

/-- JS line terminators, the characters `.` does not match. -/
def isLineTerm (c : Char) : Bool :=
  c == '\n' || c == '\r' || c.toNat == 0x2028 || c.toNat == 0x2029

/-- `String.prototype.trim` over the character list. -/
def trimJs (s : List Char) : List Char :=
  ((s.dropWhile isJsSpace).reverse.dropWhile isJsSpace).reverse

/-- Existence and capture of a match of `^PRE\s*(.+)$` against `t`:
after the literal prefix, the greedy `\s*` eats the maximal whitespace run;
if a non-empty remainder is left it must be free of line terminators and is
the capture; if the whole rest is whitespace, `\s*` backtracks one character
and `(.+)` captures it (when it is not a line terminator). -/
def matchClaimPattern (pre : List Char) (t : List Char) : Option (List Char) :=
  if pre.isPrefixOf t then
    let rest := t.drop pre.length
    let w := rest.takeWhile isJsSpace
    let r := rest.drop w.length
    if r ≠ [] then
      if r.any isLineTerm then none else some r
    else
      match rest.getLast? with
      | none => none
      | some c => if isLineTerm c then none else some [c]
  else none

/-- `extractIdentityClaim` (identity.ts): first matching pattern wins, the
capture is trimmed.  Returns `none` when no pattern matches (`null` in TS). -/
def extractIdentityClaim (message : String) : Option String :=
  let t := trimJs message.data
  match matchClaimPattern "我是".data t with
  | some g => some (String.mk (trimJs g))
  | none =>
    match matchClaimPattern "我叫".data t with
    | some g => some (String.mk (trimJs g))
    | none =>
      match matchClaimPattern "我的名字是".data t with
      | some g => some (String.mk (trimJs g))
      | none => none

/-- Result record of `handleIdentityClaim` (identity.ts). -/
structure ClaimResult where
  isNewClaim : Bool
  autoConfirmed : Bool
  existingUser : Option VerifiedUser := none
  message : String
  deriving DecidableEq, Repr

/-- `handleIdentityClaim` (identity.ts): a requester whose `openId` is already
bound in `verified_users` is confirmed at once; otherwise the claimed name is
looked up among active users (`Object.entries(...).find`, file order): an L1
match refuses auto-confirmation, any other active match auto-confirms as an
id change, and no match escalates to manual confirmation. -/
def handleIdentityClaim (identityMap : IdentityMap) (openId : String)
    (claimedName : String) : ClaimResult :=
  match mapGet identityMap.verified_users openId with
  | some existingUser =>
    { isNewClaim := false
      autoConfirmed := true
      existingUser := some existingUser
      message := "身份已确认，欢迎 " ++ existingUser.name ++ "。" }
  | none =>
    match identityMap.verified_users.find?
        (fun p => p.2.name == claimedName && p.2.status == "active") with
    | some nameExists =>
      if nameExists.2.level == .L1 then
        { isNewClaim := true
          autoConfirmed := false
          message := "身份声明「" ++ claimedName ++ "」已提交，等待大A确认..." }
      else
        { isNewClaim := true
          autoConfirmed := true
          existingUser := some nameExists.2
          message := "身份已自动确认，欢迎 " ++ claimedName ++ "。检测到ID变更，已更新记录。" }
    | none =>
      { isNewClaim := true
        autoConfirmed := false
        message := "您好！我是小A 🤖\n\n您的身份尚未登记，请等待大A确认后使用。\n\n如 urgent，请直接联系大A。" }

/-- Last `n` characters of a string (JS `slice(-n)` for ASCII open ids). -/
def takeRight (s : String) (n : Nat) : String :=
  String.mk (s.data.drop (s.data.length - n))

/-- `shortenOpenId` (identity.ts): `ou_0826a3…` → `ou_0826a3…` shortened to
`first8...last4` when at least 12 characters long. -/
def shortenOpenId (openId : String) : String :=
  if openId == "" || openId.data.length < 12 then openId
  else String.mk (openId.data.take 8) ++ "..." ++ takeRight openId 4

/-- `getUserDisplayName` (identity.ts).  The asynchronous Feishu API call of
`fetchUserNameFromFeishu` is abstracted by `apiName`: the name the API would
return, `none` when no account is configured or the call fails. -/
def getUserDisplayName (identityMap : Option IdentityMap) (openId : String)
    (apiName : Option String) : String :=
  let fromMap : Option String :=
    match identityMap with
    | some m =>
      match mapGet m.verified_users openId with
      | some user => if user.name == "" then none else some user.name
      | none => none
    | none => none
  match fromMap with
  | some n => n
  | none =>
    match apiName with
    | some n => if n == "" then shortenOpenId openId else n
    | none => shortenOpenId openId


/-! ## Gatekeeper (`src/gatekeeper.ts`) -/

/-- `OperationType` (gatekeeper.ts). -/
inductive OperationType where
  | query | read_file | write_file | git | docker | system | send_message | modify_rules
  deriving DecidableEq, Repr

/-- Rendering of an `OperationType` back to its TS string literal. -/
def opToString : OperationType → String
  | .query => "query" | .read_file => "read_file" | .write_file => "write_file"
  | .git => "git" | .docker => "docker" | .system => "system"
  | .send_message => "send_message" | .modify_rules => "modify_rules"

/-- `PERMISSION_MATRIX` (gatekeeper.ts): the static operation × level table. -/
def PERMISSION_MATRIX : OperationType → PermissionLevel → Bool
  | .query, .L1 => true
  | .query, .L2 => true
  | .query, .L3 => true
  | .query, .L0 => true
  | .read_file, .L1 => true
  | .read_file, .L2 => true
  | .read_file, .L3 => false
  | .read_file, .L0 => false
  | .write_file, .L1 => true
  | .write_file, .L2 => false
  | .write_file, .L3 => false
  | .write_file, .L0 => false
  | .git, .L1 => true
  | .git, .L2 => false
  | .git, .L3 => false
  | .git, .L0 => false
  | .docker, .L1 => true
  | .docker, .L2 => false
  | .docker, .L3 => false
  | .docker, .L0 => false
  | .system, .L1 => true
  | .system, .L2 => false
  | .system, .L3 => false
  | .system, .L0 => false
  | .send_message, .L1 => true
  | .send_message, .L2 => false
  | .send_message, .L3 => false
  | .send_message, .L0 => false
  | .modify_rules, .L1 => true
  | .modify_rules, .L2 => false
  | .modify_rules, .L3 => false
  | .modify_rules, .L0 => false

/-- `checkPermission` (gatekeeper.ts): the base matrix with the three early
`return true` department overrides. -/
def checkPermission (level : PermissionLevel) (operation : OperationType)
    (_isDepartmentResource : Bool := false) (isOwnDepartment : Bool := false) : Bool :=
  let baseAllowed := PERMISSION_MATRIX operation level
  if level == .L3 && operation == .read_file && isOwnDepartment then true
  else if level == .L2 && operation == .modify_rules && isOwnDepartment then true
  else if level == .L2 && operation == .write_file && isOwnDepartment then true
  else baseAllowed

/-- `isSensitiveOperation` (gatekeeper.ts):
`["git","docker","system","modify_rules","send_message"].includes(operation)`. -/
def isSensitiveOperation (operation : OperationType) : Bool :=
  [OperationType.git, .docker, .system, .modify_rules, .send_message].contains operation

/-- `getPermissionDeniedMessage` (gatekeeper.ts). -/
def getPermissionDeniedMessage (level : PermissionLevel) (operation : OperationType) : String :=
  if level == .L0 then
    "请先私聊大A进行身份登记，完成登记后才能使用。"
  else if operation == .modify_rules && level == .L2 then
    "此操作涉及其他部门规则，已提交到大A确认，请稍候..."
  else if operation == .git || operation == .docker || operation == .system then
    "此操作需要最高权限，已为您提交到大A确认，请稍候..."
  else
    "此操作超出您的权限范围，已为您提交到大A确认，请稍候..."

/-! ### The pattern rules of `detectOperationType`

Each rule of `detectOperationType` (gatekeeper.ts) is a JS regex `test`
against the lowercased message.  The regexes are of the two shapes
`\b(w1|w2|…)\b` and `\b(a1|…).*(b)\b`; they are embedded character by
character with JS semantics: `\w` is `[A-Za-z0-9_]`, `\b` holds where exactly
one neighbour is a `\w` character, and `.` excludes the line terminators. -/

/-- JS `\w`. -/
def wordChar (c : Char) : Bool := c.isAlphanum || c == '_'

/-- JS `\b` at position `i` of `s` (positions `0 … s.length`). -/
def boundaryAt (s : List Char) (i : Nat) : Bool :=
  let before := i != 0 && wordChar (s.getD (i - 1) ' ')
  let after := wordChar (s.getD i ' ')
  before != after

/-- The literal `pat` occurs in `s` at position `i`. -/
def occursAt (pat s : List Char) (i : Nat) : Bool :=
  List.isPrefixOf pat (s.drop i)

/-- `\bPAT\b` has a match in `s`. -/
def wordMatch (pat s : List Char) : Bool :=
  (List.range (s.length + 1)).any
    (fun i => occursAt pat s i && boundaryAt s i && boundaryAt s (i + pat.length))

/-- `\bA.*B\b` has a match in `s`: `A` at `i` with a boundary before it, `B`
at `j ≥ i + |A|` with a boundary after it, and only `.`-matchable characters
in between. -/
def dottedMatch (a b s : List Char) : Bool :=
  (List.range (s.length + 1)).any (fun i =>
    occursAt a s i && boundaryAt s i &&
    (List.range (s.length + 1)).any (fun j =>
      decide (i + a.length ≤ j) && occursAt b s j && boundaryAt s (j + b.length) &&
      ((s.drop (i + a.length)).take (j - (i + a.length))).all (fun c => !isLineTerm c)))

/-- `/\b(git|push|pull|commit|clone|checkout)\b/` (gatekeeper.ts). -/
def matchGit (s : List Char) : Bool :=
  ["git".data, "push".data, "pull".data, "commit".data, "clone".data,
   "checkout".data].any (fun w => wordMatch w s)

/-- `/\b(docker|container|image|compose)\b/` (gatekeeper.ts). -/
def matchDocker (s : List Char) : Bool :=
  ["docker".data, "container".data, "image".data, "compose".data].any
    (fun w => wordMatch w s)

/-- `/\b(rm|mv|cp|chmod|chown|sudo|apt|yum|systemctl)\b/` (gatekeeper.ts). -/
def matchSystem (s : List Char) : Bool :=
  ["rm".data, "mv".data, "cp".data, "chmod".data, "chown".data, "sudo".data,
   "apt".data, "yum".data, "systemctl".data].any (fun w => wordMatch w s)

/-- `/\b(rule|规则|修改.*配置)\b/` (gatekeeper.ts). -/
def matchModifyRules (s : List Char) : Bool :=
  wordMatch "rule".data s || wordMatch "规则".data s ||
  dottedMatch "修改".data "配置".data s

/-- `/\b(发送|邮件|email|群发|通知)\b/` (gatekeeper.ts). -/
def matchSendMessage (s : List Char) : Bool :=
  ["发送".data, "邮件".data, "email".data, "群发".data, "通知".data].any
    (fun w => wordMatch w s)

/-- `/\b(修改|写入|创建|删除).*文件\b/` (gatekeeper.ts). -/
def matchWriteFile (s : List Char) : Bool :=
  ["修改".data, "写入".data, "创建".data, "删除".data].any
    (fun a => dottedMatch a "文件".data s)

/-- `/\b(读取|查看|打开).*文件\b/` (gatekeeper.ts). -/
def matchReadFile (s : List Char) : Bool :=
  ["读取".data, "查看".data, "打开".data].any
    (fun a => dottedMatch a "文件".data s)

/-- `message.toLowerCase()`, modelled by per-character ASCII lowering (the
keyword alternatives only contain ASCII letters and Chinese characters, which
`toLowerCase` maps the same way). -/
def lowerChars (message : String) : List Char :=
  message.data.map Char.toLower

/-- `detectOperationType` (gatekeeper.ts): the ordered if-chain of pattern
rules over the lowercased message, defaulting to `query`. -/
def detectOperationType (message : String) : OperationType :=
  let lowerMsg := lowerChars message
  if matchGit lowerMsg then .git
  else if matchDocker lowerMsg then .docker
  else if matchSystem lowerMsg then .system
  else if matchModifyRules lowerMsg then .modify_rules
  else if matchSendMessage lowerMsg then .send_message
  else if matchWriteFile lowerMsg then .write_file
  else if matchReadFile lowerMsg then .read_file
  else .query


/-! ## Reporter (`src/reporter.ts`) -/

/-- The `type` union of `formatMasterNotification` (reporter.ts). -/
inductive NotificationType where
  | permission_request | identity_claim | error
  deriving DecidableEq, Repr

/-- `typeLabels[type]` (reporter.ts). -/
def notificationTypeLabel : NotificationType → String
  | .permission_request => "🚨 权限请求"
  | .identity_claim => "👤 身份声明"
  | .error => "⚠️ 错误通知"

/-- Parameter record of `formatMasterNotification` (reporter.ts). -/
structure MasterNotificationParams where
  type : NotificationType
  source : String
  requesterId : String
  requesterName : String
  requesterLevel : String
  details : String
  deriving DecidableEq, Repr

/-- `formatMasterNotification` (reporter.ts): the template literal. -/
def formatMasterNotification (p : MasterNotificationParams) : String :=
  notificationTypeLabel p.type ++ "\n\n来源: " ++ p.source ++ "\n请求人: " ++
  p.requesterName ++ " (" ++ p.requesterLevel ++ ")\nID: " ++ p.requesterId ++
  "\n\n详情: " ++ p.details ++ "\n\n[✅ 授权执行] [❌ 拒绝] [📝 询问详情]"

/-- `shouldReportToGroup` (reporter.ts). -/
def shouldReportToGroup (userLevel : String) : Bool :=
  userLevel != "L1"

/-! ## Central auth manager (`src/central-auth.ts`) -/

/-- `PendingPermissionRequest` (central-auth.ts). -/
structure PendingPermissionRequest where
  requestId : String
  openId : String
  userName : String
  userLevel : String
  operation : OperationType
  originalMessage : String
  sourceChannel : String
  groupId : Option String := none
  timestamp : Nat
  deriving DecidableEq, Repr

/-- `AuditEvent` (central-auth.ts audit module).  `metadata` values are typed
`any` in TS; they are embedded as strings, which no claim inspects. -/
structure AuditEvent where
  id : String
  timestamp : String
  eventType : String
  userId : String
  userName : String
  userLevel : String
  source : String
  details : String
  success : Bool
  errorMessage : Option String := none
  metadata : Option (List (String × String)) := none
  deriving DecidableEq, Repr

/-- The mutable state of a `CentralAuthManager` together with the audit
logger's stored events.  `handleIncomingMessage` makes no call into
`AuditLogger`, so the `auditLog` component records exactly the events the
pipeline appends: none. -/
structure AuthState where
  identityMap : Option IdentityMap := none
  pendingRequests : List (String × PendingPermissionRequest) := []
  auditLog : List AuditEvent := []
  deriving DecidableEq, Repr

/-- Parameter record of `addPendingVerification` (central-auth.ts). -/
structure PendingVerificationParams where
  openId : String
  claimedName : String
  channel : String
  deriving DecidableEq, Repr

/-- `addPendingVerification` (central-auth.ts 508-517): builds a
`verify_${Date.now()}_${random}` id and returns it.  The body stores nothing —
the comment `实际实现需要保存到文件` marks persistence as unimplemented — so
the manager state is returned unchanged. -/
def addPendingVerification (st : AuthState) (_params : PendingVerificationParams)
    (now : Nat) (rand : String) : String × AuthState :=
  ("verify_" ++ toString now ++ "_" ++ rand, st)

/-- Parameter record of `addPendingPermissionRequest` (central-auth.ts). -/
structure PermissionRequestParams where
  openId : String
  userName : String
  userLevel : String
  operation : OperationType
  originalMessage : String
  sourceChannel : String
  groupId : Option String := none
  deriving DecidableEq, Repr

/-- `addPendingPermissionRequest` (central-auth.ts 522-531): builds a
`perm_${Date.now()}_${random}` id, inserts the request into the
`pendingRequests` map and returns the id. -/
def addPendingPermissionRequest (st : AuthState) (params : PermissionRequestParams)
    (now : Nat) (rand : String) : String × AuthState :=
  let requestId := "perm_" ++ toString now ++ "_" ++ rand
  let request : PendingPermissionRequest :=
    { requestId := requestId
      openId := params.openId
      userName := params.userName
      userLevel := params.userLevel
      operation := params.operation
      originalMessage := params.originalMessage
      sourceChannel := params.sourceChannel
      groupId := params.groupId
      timestamp := now }
  (requestId, { st with pendingRequests := mapSet st.pendingRequests requestId request })

/-- Input record of `handleIncomingMessage` (central-auth.ts). -/
structure IncomingParams where
  openId : String
  message : String
  isGroup : Bool
  groupId : Option String := none
  deriving DecidableEq, Repr

/-- Result record of `handleIncomingMessage` (central-auth.ts).  Optional TS
fields absent from a return value are `none`/`false`. -/
structure IncomingResult where
  shouldProcess : Bool
  reply : Option String := none
  forwardToMaster : Bool := false
  forwardMessage : Option String := none
  requestId : Option String := none
  deriving DecidableEq, Repr

/-- `` isGroup ? `飞书群:${groupId}` : "飞书私聊" `` — an absent `groupId`
renders as the JS string `"undefined"`. -/
def sourceChannelOf (p : IncomingParams) : String :=
  if p.isGroup then "飞书群:" ++ p.groupId.getD "undefined" else "飞书私聊"

/-- JS truthiness of the `identityClaim` value (`null` and `""` are falsy). -/
def claimTruthy : Option String → Bool
  | none => false
  | some c => c != ""

/-- `message.slice(0, 100)`, modelled as the first 100 characters (identical
for all messages without surrogate pairs). -/
def sliceMessage (message : String) : String :=
  String.mk (message.data.take 100)

/-- Steps 2-4 of `handleIncomingMessage` (central-auth.ts 443-502): level
check, operation/permission check with the sensitive-escalation branch, and
the in-group containment branch. -/
def handleIncomingSteps2to4 (st : AuthState) (p : IncomingParams)
    (identityClaim : Option String) (apiName : Option String)
    (now : Nat) (rand : String) : IncomingResult × AuthState :=
  let userLevel := getUserLevel st.identityMap p.openId
  if userLevel == .L0 && !claimTruthy identityClaim then
    ({ shouldProcess := false
       reply := some "请先私聊大A进行身份登记，完成后即可正常使用。\n\n发送「我是XXX」可开始登记流程。" }, st)
  else
    let operationType := detectOperationType p.message
    let hasPermission := checkPermission userLevel operationType false false
    if !hasPermission && isSensitiveOperation operationType then
      let displayName := getUserDisplayName st.identityMap p.openId apiName
      let (requestId, st') := addPendingPermissionRequest st
        { openId := p.openId
          userName := displayName
          userLevel := levelToString userLevel
          operation := operationType
          originalMessage := p.message
          sourceChannel := sourceChannelOf p
          groupId := p.groupId } now rand
      ({ shouldProcess := false
         reply := some (getPermissionDeniedMessage userLevel operationType)
         forwardToMaster := true
         forwardMessage := some (formatMasterNotification
           { type := .permission_request
             source := sourceChannelOf p
             requesterId := p.openId
             requesterName := displayName
             requesterLevel := levelToString userLevel
             details := "请求操作: " ++ opToString operationType ++ "\n消息内容: " ++
               sliceMessage p.message ++ "\n处理ID: " ++ requestId })
         requestId := some requestId }, st')
    else if p.isGroup && isSensitiveOperation operationType then
      ({ shouldProcess := false
         reply := some "群里禁止操作，请私聊我处理，谢谢配合！" }, st)
    else
      ({ shouldProcess := true }, st)

/-- `handleIncomingMessage` (central-auth.ts 388-503).  `apiName` abstracts
the Feishu display-name API (see `getUserDisplayName`); `now` and `rand`
abstract `Date.now()` and `Math.random().toString(36).substr(2, 9)`. -/
def handleIncomingMessage (st : AuthState) (p : IncomingParams)
    (apiName : Option String) (now : Nat) (rand : String) : IncomingResult × AuthState :=
  let identityClaim := extractIdentityClaim p.message
  match identityClaim, st.identityMap with
  | some claim, some imap =>
    if claim == "" then
      -- `if (identityClaim && this.identityMap)`: the empty capture is falsy
      handleIncomingSteps2to4 st p identityClaim apiName now rand
    else
      let result := handleIdentityClaim imap p.openId claim
      if result.autoConfirmed && result.existingUser.isSome then
        ({ shouldProcess := true, reply := some result.message }, st)
      else if !result.autoConfirmed then
        let (requestId, st') := addPendingVerification st
          { openId := p.openId
            claimedName := claim
            channel := if p.isGroup then "group:" ++ p.groupId.getD "undefined" else "dm" }
          now rand
        ({ shouldProcess := false
           reply := some result.message
           forwardToMaster := true
           forwardMessage := some (formatMasterNotification
             { type := .identity_claim
               source := sourceChannelOf p
               requesterId := p.openId
               requesterName := claim
               requesterLevel := "L0"
               details := "声称身份: " ++ claim ++ "\n自动分配ID: " ++ requestId })
           requestId := some requestId }, st')
      else
        handleIncomingSteps2to4 st p identityClaim apiName now rand
  | _, _ =>
    handleIncomingSteps2to4 st p (extractIdentityClaim p.message) apiName now rand

/-- Result record of `handlePermissionApproval` (central-auth.ts). -/
structure ApprovalResult where
  success : Bool
  message : String
  request : Option PendingPermissionRequest := none
  deriving DecidableEq, Repr

/-- `handlePermissionApproval` (central-auth.ts 553-589): looks the id up in
`pendingRequests`, answers not-found when absent, otherwise removes the entry
and reports the approval or rejection. -/
def handlePermissionApproval (pending : List (String × PendingPermissionRequest))
    (requestId : String) (approved : Bool) (reason : Option String) :
    ApprovalResult × List (String × PendingPermissionRequest) :=
  match mapGet pending requestId with
  | none =>
    ({ success := false, message := "未找到请求: " ++ requestId }, pending)
  | some request =>
    let pending' := mapDelete pending requestId
    if approved then
      ({ success := true
         message := "已批准 " ++ request.userName ++ " 的 " ++ opToString request.operation ++ " 请求"
         request := some request }, pending')
    else
      ({ success := true
         message := "已拒绝 " ++ request.userName ++ " 的请求" ++
           (match reason with | some r => ": " ++ r | none => "")
         request := some request }, pending')

/-! ## Audit logger (`src/central-auth.ts`, audit module) -/

/-- The caller-supplied part of an `AuditEvent` (`Omit<AuditEvent, "id" | "timestamp">`). -/
structure AuditEventInput where
  eventType : String
  userId : String
  userName : String
  userLevel : String
  source : String
  details : String
  success : Bool
  errorMessage : Option String := none
  metadata : Option (List (String × String)) := none
  deriving DecidableEq, Repr

/-- The event `AuditLogger.log` constructs from its input. -/
def buildAuditEvent (event : AuditEventInput) (eventId timestamp : String) : AuditEvent :=
  { id := eventId
    timestamp := timestamp
    eventType := event.eventType
    userId := event.userId
    userName := event.userName
    userLevel := event.userLevel
    source := event.source
    details := event.details
    success := event.success
    errorMessage := event.errorMessage
    metadata := event.metadata }

/-- `AuditLogger.log` (central-auth.ts 773-792): assigns id and timestamp,
then calls `writeToFile`, which runs `fs.appendFileSync` with no try/catch
anywhere on the path — so a throwing append propagates out of `log`.
`appendOutcome` is the outcome of that append (`Except.error` = the exception
`fs.appendFileSync` threw); `eventId` and `timestamp` abstract
`generateEventId()` and `new Date().toISOString()`.  The internal
date-partition bookkeeping (`updateCurrentFile`) only chooses the file path
and is absorbed into `appendOutcome`. -/
def auditLoggerLog (appendOutcome : Except String Unit) (event : AuditEventInput)
    (eventId timestamp : String) : Except String AuditEvent :=
  let auditEvent := buildAuditEvent event eventId timestamp
  match appendOutcome with
  | .error e => .error e
  | .ok _ => .ok auditEvent

/-- The effective retention window of `cleanOldLogs` (central-auth.ts 1026-1040):
the constructor spread defaults an absent `maxDays` to 30, and the expression
`this.config.maxDays || 30` additionally sends the falsy value `0` to 30. -/
def effectiveMaxDays (maxDays : Option Nat) : Nat :=
  let configured := maxDays.getD 30
  if configured == 0 then 30 else configured

/-- `cleanOldLogs` (central-auth.ts 1026-1040): removes every file in the log
directory whose last-modified age exceeds `maxDays` (in ms).  `files` is the
directory listing as `(name, mtimeMs)` pairs and `now` is `Date.now()`; the
retained listing is returned. -/
def cleanOldLogs (maxDays : Option Nat) (now : Nat) (files : List (String × Nat)) :
    List (String × Nat) :=
  let maxAgeMs := effectiveMaxDays maxDays * 24 * 60 * 60 * 1000
  files.filter (fun f => !(now - f.2 > maxAgeMs))

/-- The filter options of `AuditLogger.query` (central-auth.ts).  Timestamps
are ISO-8601 strings, whose lexicographic order agrees with `new Date(…)`
comparison, so the date filters are string comparisons. -/
structure QueryOptions where
  startDate : Option String := none
  endDate : Option String := none
  userId : Option String := none
  eventType : Option String := none
  limit : Nat := 100
  deriving DecidableEq, Repr

/-- The per-event filter conditions of `query`: an event is skipped when its
timestamp lies before `startDate` or after `endDate`, or the `userId` or
`eventType` filters disagree. -/
def matchesQuery (o : QueryOptions) (e : AuditEvent) : Bool :=
  (match o.startDate with | some d => !(e.timestamp < d) | none => true) &&
  (match o.endDate with | some d => !(d < e.timestamp) | none => true) &&
  (match o.userId with | some u => e.userId == u | none => true) &&
  (match o.eventType with | some t => e.eventType == t | none => true)

/-- The scan loop of `query`: events are visited in file/chronological order
and collected until `limit` results are gathered. -/
def queryLoop (o : QueryOptions) : List AuditEvent → Nat → List AuditEvent
  | _, 0 => []
  | [], _ + 1 => []
  | e :: rest, k + 1 =>
    if matchesQuery o e then e :: queryLoop o rest k else queryLoop o rest (k + 1)

/-- `AuditLogger.query` (central-auth.ts 894-936).  `store` is the
concatenation of the parsed lines of the `.jsonl` partitions in filename
(hence chronological) order. -/
def queryEvents (store : List AuditEvent) (o : QueryOptions) : List AuditEvent :=
  queryLoop o store o.limit

/-- `details.replace(/"/g, '""')` at the character level. -/
def escList : List Char → List Char
  | [] => []
  | c :: rest => if c = '"' then '"' :: '"' :: escList rest else c :: escList rest

/-- `AuditLogger.exportToCSV`'s quote escaping. -/
def escapeQuotes (s : String) : String :=
  String.mk (escList s.data)

/-- `Array.prototype.join(sep)` for a one-character separator. -/
def joinWith (sep : Char) : List String → String
  | [] => ""
  | [x] => x
  | x :: xs => x ++ String.singleton sep ++ joinWith sep xs

/-- One CSV row of `exportToCSV` (central-auth.ts 952-960): timestamp, event
type, user name, level, source, the double-quote-escaped details wrapped in
quotes, and the success text, joined by commas. -/
def csvRow (e : AuditEvent) : String :=
  joinWith ','
    [e.timestamp, e.eventType, e.userName, e.userLevel, e.source,
     "\"" ++ escapeQuotes e.details ++ "\"",
     if e.success then "成功" else "失败"]

/-- The CSV header row of `exportToCSV`. -/
def csvHeader : String :=
  joinWith ',' ["时间", "事件类型", "用户", "权限等级", "来源", "详情", "结果"]

/-- `AuditLogger.exportToCSV` (central-auth.ts 941-963): queries with the
three filters (no `eventType` filter, default `limit` 100) and joins the
header and the rows with newlines. -/
def exportToCSV (store : List AuditEvent)
    (startDate endDate userId : Option String) : String :=
  let events := queryEvents store
    { startDate := startDate, endDate := endDate, userId := userId }
  joinWith '\n' (csvHeader :: events.map csvRow)

/-! ### A quote-aware CSV reader (specification side)

To state the round-trip part of the export contract we parse CSV text the
standard way: a separator splits only while outside double quotes, and each
`"` toggles the quote state.  `csvRecords` splits the output into records at
unquoted newlines, `csvFields` splits a record into columns at unquoted
commas. -/

/-- Split at unquoted occurrences of `sep`; `inQ` is the quote state, `acc`
the characters of the current piece in reverse. -/
def splitOutsideQuotes (sep : Char) : List Char → Bool → List Char → List (List Char)
  | [], _, acc => [acc.reverse]
  | c :: rest, inQ, acc =>
    if c == '"' then splitOutsideQuotes sep rest (!inQ) (c :: acc)
    else if c == sep && !inQ then acc.reverse :: splitOutsideQuotes sep rest false []
    else splitOutsideQuotes sep rest inQ (c :: acc)

/-- The records of a CSV document. -/
def csvRecords (s : String) : List String :=
  (splitOutsideQuotes '\n' s.data false []).map String.mk

/-- The columns of one CSV record. -/
def csvFields (r : String) : List String :=
  (splitOutsideQuotes ',' r.data false []).map String.mk

/-- Quote state after scanning `xs` from state `q`. -/
def quoteState : List Char → Bool → Bool
  | [], q => q
  | c :: rest, q => quoteState rest (if c == '"' then !q else q)

/-- Whether `xs` contains `sep` at an unquoted position, scanning from `q`. -/
def hasUnquotedSep (sep : Char) : List Char → Bool → Bool
  | [], _ => false
  | c :: rest, q =>
    if c == '"' then hasUnquotedSep sep rest (!q)
    else if c == sep && !q then true
    else hasUnquotedSep sep rest q

/-! ## Specification-side definitions

These definitions restate contracts in the words of the specification; the
claim theorems compare them with the embedded source functions. -/

/-- The spec's `getLevel` contract: L0 when the registry is absent, the id is
unknown, or the matched user's status is not active; otherwise the matched
user's level. -/
def getLevelSpec (identityMap : Option IdentityMap) (openId : String) : PermissionLevel :=
  match identityMap with
  | none => .L0
  | some m =>
    match mapGet m.verified_users openId with
    | none => .L0
    | some user => if user.status = "active" then user.level else .L0

/-- The spec's ordered rule list for `classify`: git, docker, system,
modify_rules, send_message, write_file, read_file — in this order. -/
def operationRules : List ((List Char → Bool) × OperationType) :=
  [(matchGit, .git), (matchDocker, .docker), (matchSystem, .system),
   (matchModifyRules, .modify_rules), (matchSendMessage, .send_message),
   (matchWriteFile, .write_file), (matchReadFile, .read_file)]

/-- The spec's `classify`: the first rule of `operationRules` whose pattern
matches the lowercased message determines the operation; `query` when none
matches. -/
def classifySpec (message : String) : OperationType :=
  match operationRules.find? (fun r => r.1 (lowerChars message)) with
  | some r => r.2
  | none => .query

/-- The field list of one exported CSV row (`csvRow` is their comma join). -/
def csvRowFields (e : AuditEvent) : List String :=
  [e.timestamp, e.eventType, e.userName, e.userLevel, e.source,
   "\"" ++ escapeQuotes e.details ++ "\"",
   if e.success then "成功" else "失败"]

/-- The unquoted CSV columns of an export row contain no comma, double quote
or newline.  `exportToCSV` quotes and escapes only the `details` column, so
this is the condition under which a row parses back into its seven columns. -/
def plainFieldsClean (e : AuditEvent) : Prop :=
  ∀ f ∈ [e.timestamp, e.eventType, e.userName, e.userLevel, e.source],
    ∀ c ∈ f.data, c ≠ ',' ∧ c ≠ '"' ∧ c ≠ '\n'

instance (e : AuditEvent) : Decidable (plainFieldsClean e) := by
  unfold plainFieldsClean
  infer_instance

/-! ## Concrete inputs used by counterexamples and witnesses -/

/-- A registry with one bound L2 user and the L1 administrator. -/
def c1Map : IdentityMap :=
  { verified_users :=
      [("ou_bound", { name := "Bella", level := .L2, status := "active" }),
       ("ou_admin", { name := "大A", level := .L1, status := "active" })] }

/-- A registry holding only the L1 administrator. -/
def c1WitnessMap : IdentityMap :=
  { verified_users := [("ou_admin", { name := "大A", level := .L1, status := "active" })] }

/-- Manager state for the C4 counterexample: one active L2 user, no pending
requests, empty audit log. -/
def c4State : AuthState :=
  { identityMap := some { verified_users :=
      [("ou_B", { name := "Bella", level := .L2, status := "active" })] } }

/-- An L2 user sends `git push` in a direct message. -/
def c4Params : IncomingParams :=
  { openId := "ou_B", message := "git push", isGroup := false }

/-- A concrete pending permission request. -/
def c5Req : PendingPermissionRequest :=
  { requestId := "perm_1_x", openId := "ou_B", userName := "Bella",
    userLevel := "L2", operation := .git, originalMessage := "git push",
    sourceChannel := "飞书私聊", timestamp := 1 }

/-- A concrete audit event input. -/
def c6Event : AuditEventInput :=
  { eventType := "permission_request", userId := "ou_B", userName := "Bella",
    userLevel := "L2", source := "飞书私聊", details := "请求操作: git", success := true }

/-- An audit event whose free-text `userName` contains a comma; every other
column is delimiter-free. -/
def c9CexEvent : AuditEvent :=
  { id := "evt_1", timestamp := "2024-01-01T00:00:00.000Z",
    eventType := "permission_request", userId := "ou_B", userName := "a,b",
    userLevel := "L1", source := "dm", details := "d", success := true }

/-- An audit event whose details contain quotes and commas but whose unquoted
columns are delimiter-free. -/
def c9WitnessEvent : AuditEvent :=
  { id := "evt_2", timestamp := "2024-01-02T00:00:00.000Z",
    eventType := "permission_denied", userId := "ou_C", userName := "Ada",
    userLevel := "L2", source := "飞书私聊", details := "say \"hi\", ok", success := false }

/-- A pending request used by the C10 witness. -/
def c10Req : PendingPermissionRequest :=
  { requestId := "perm_5_q", openId := "ou_D", userName := "Dan",
    userLevel := "L3", operation := .docker, originalMessage := "docker ps",
    sourceChannel := "飞书私聊", timestamp := 5 }

/-- Manager state used by the C10 witness: one tracked `perm_` request. -/
def c10State : AuthState :=
  { pendingRequests := [("perm_5_q", c10Req)] }

/-- A CSV piece is well formed for separator `sep` when it contains no
unquoted `sep` and its quotes are balanced. -/
def pieceOk (sep : Char) (s : String) : Prop :=
  hasUnquotedSep sep s.data false = false ∧ quoteState s.data false = false

/-! ## Helper lemmas about the JS map embedding -/

theorem mapGet_cons {α : Type} (p : String × α) (m : List (String × α)) (k : String) :
    mapGet (p :: m) k = if p.1 = k then some p.2 else mapGet m k := by
  by_cases h : p.1 = k
  · simp [mapGet, List.find?, h]
  · have hb : (p.1 == k) = false := by simp [h]
    simp [mapGet, List.find?, h, hb]

theorem mapDelete_cons {α : Type} (p : String × α) (m : List (String × α)) (k : String) :
    mapDelete (p :: m) k = if p.1 = k then mapDelete m k else p :: mapDelete m k := by
  by_cases h : p.1 = k <;> simp [mapDelete, List.filter_cons, h]

theorem mapGet_mapDelete_self {α : Type} (m : List (String × α)) (k : String) :
    mapGet (mapDelete m k) k = none := by
  induction m with
  | nil => rfl
  | cons p rest ih =>
    rw [mapDelete_cons]
    by_cases h : p.1 = k
    · simpa [h] using ih
    · rw [if_neg h, mapGet_cons, if_neg h]
      exact ih

theorem mapDelete_of_not_mem {α : Type} (m : List (String × α)) (k : String)
    (h : ∀ p ∈ m, p.1 ≠ k) : mapDelete m k = m := by
  rw [mapDelete, List.filter_eq_self]
  intro p hp
  simpa using h p hp

theorem mapDelete_length {α : Type} (m : List (String × α)) (k : String) (v : α)
    (hnodup : (m.map Prod.fst).Nodup) (hget : mapGet m k = some v) :
    (mapDelete m k).length + 1 = m.length := by
  induction m with
  | nil => simp [mapGet] at hget
  | cons p rest ih =>
    rw [List.map_cons, List.nodup_cons] at hnodup
    rw [mapDelete_cons]
    rw [mapGet_cons] at hget
    by_cases h : p.1 = k
    · rw [if_pos h]
      have hrest : mapDelete rest k = rest := by
        refine mapDelete_of_not_mem rest k (fun q hq hqk => ?_)
        exact hnodup.1 (by rw [h, ← hqk] at hnodup ⊢; exact List.mem_map_of_mem Prod.fst hq)
      rw [hrest]
      simp
    · rw [if_neg h] at hget
      rw [if_neg h, List.length_cons, List.length_cons, ih hnodup.2 hget]

/-! ## Helper lemmas about the CSV scanner -/

theorem quoteState_append (xs ys : List Char) (q : Bool) :
    quoteState (xs ++ ys) q = quoteState ys (quoteState xs q) := by
  induction xs generalizing q with
  | nil => rfl
  | cons c rest ih => simp [quoteState, ih]

theorem hasUnquotedSep_append (sep : Char) (xs ys : List Char) (q : Bool) :
    hasUnquotedSep sep (xs ++ ys) q =
      (hasUnquotedSep sep xs q || hasUnquotedSep sep ys (quoteState xs q)) := by
  induction xs generalizing q with
  | nil => rfl
  | cons c rest ih =>
    by_cases hc : c = '"'
    · simp [hasUnquotedSep, quoteState, hc, ih]
    · by_cases hs : (c = sep ∧ q = false)
      · obtain ⟨hcs, hq⟩ := hs
        subst hq
        have hsb : (c == '"') = false := by simpa using hc
        have hcsb : (c == sep) = true := by simpa using hcs
        simp [hasUnquotedSep, hsb, hcsb]
      · have : (c == sep && !q) = false := by
          rcases hs' : q with _ | _ <;> simp_all
        simp [hasUnquotedSep, quoteState, hc, this, ih]

theorem splitOutside_append_sep (sep : Char) (hsep : sep ≠ '"') (ys : List Char)
    (xs : List Char) (q : Bool) (acc : List Char)
    (hno : hasUnquotedSep sep xs q = false) (hbal : quoteState xs q = false) :
    splitOutsideQuotes sep (xs ++ sep :: ys) q acc =
      (acc.reverse ++ xs) :: splitOutsideQuotes sep ys false [] := by
  induction xs generalizing q acc with
  | nil =>
    simp only [quoteState] at hbal
    subst hbal
    have hb : (sep == '"') = false := by simp [hsep]
    simp [splitOutsideQuotes, hb]
  | cons c rest ih =>
    by_cases hc : c = '"'
    · subst hc
      simp only [hasUnquotedSep, quoteState, beq_self_eq_true, if_pos] at hno hbal
      simp only [List.cons_append, splitOutsideQuotes, beq_self_eq_true, if_pos, List.append_eq]
      rw [ih (!q) ('"' :: acc) hno hbal]
      simp
    · have hcb : (c == '"') = false := by simp [hc]
      have hcs : (c == sep && !q) = false := by
        by_contra hx
        simp only [hasUnquotedSep, hcb, Bool.false_eq_true, if_neg, reduceIte] at hno
        simp_all [hasUnquotedSep]
      simp only [hasUnquotedSep, quoteState, hcb, hcs, Bool.false_eq_true, if_neg, reduceIte] at hno hbal
      simp only [List.cons_append, splitOutsideQuotes, hcb, hcs, Bool.false_eq_true, if_neg,
        reduceIte, List.append_eq]
      rw [ih q (c :: acc) hno hbal]
      simp

theorem splitOutside_no_sep (sep : Char) (xs : List Char) (q : Bool) (acc : List Char)
    (hno : hasUnquotedSep sep xs q = false) :
    splitOutsideQuotes sep xs q acc = [acc.reverse ++ xs] := by
  induction xs generalizing q acc with
  | nil => simp [splitOutsideQuotes]
  | cons c rest ih =>
    by_cases hc : c = '"'
    · subst hc
      simp only [hasUnquotedSep, beq_self_eq_true, if_pos] at hno
      simp only [splitOutsideQuotes, beq_self_eq_true, if_pos]
      rw [ih (!q) ('"' :: acc) hno]
      simp
    · have hcb : (c == '"') = false := by simp [hc]
      have hcs : (c == sep && !q) = false := by
        by_contra hx
        simp_all [hasUnquotedSep]
      simp only [hasUnquotedSep, hcb, hcs, Bool.false_eq_true, if_neg, reduceIte] at hno
      simp only [splitOutsideQuotes, hcb, hcs, Bool.false_eq_true, if_neg, reduceIte]
      rw [ih q (c :: acc) hno]
      simp

theorem joinWith_cons₂ (sep : Char) (x y : String) (rest : List String) :
    joinWith sep (x :: y :: rest) = x ++ String.singleton sep ++ joinWith sep (y :: rest) := rfl

theorem string_mk_data (s : String) : String.mk s.data = s := rfl

theorem parse_joinWith (sep : Char) (hsep : sep ≠ '"') (pieces : List String)
    (hne : pieces ≠ [])
    (hok : ∀ p ∈ pieces, pieceOk sep p) :
    splitOutsideQuotes sep (joinWith sep pieces).data false [] = pieces.map String.data := by
  induction pieces with
  | nil => exact absurd rfl hne
  | cons x rest ih =>
    cases rest with
    | nil =>
      have hx := hok x (List.mem_cons_self x [])
      simpa using splitOutside_no_sep sep x.data false [] hx.1
    | cons y rest' =>
      have hx := hok x (List.mem_cons_self x (y :: rest'))
      rw [joinWith_cons₂, String.data_append, String.data_append]
      have hdata : (String.singleton sep).data = [sep] := rfl
      rw [hdata, List.append_assoc, List.singleton_append]
      rw [splitOutside_append_sep sep hsep ((joinWith sep (y :: rest')).data) x.data false []
        hx.1 hx.2]
      rw [ih (by simp) (fun p hp => hok p (List.mem_cons_of_mem x hp))]
      simp

theorem quoteState_escList (d : List Char) : quoteState (escList d) true = true := by
  induction d with
  | nil => rfl
  | cons c rest ih =>
    by_cases hc : c = '"'
    · simp [escList, quoteState, hc, ih]
    · simp [escList, quoteState, hc, ih]

theorem hasUnquotedSep_escList (sep : Char) (d : List Char) :
    hasUnquotedSep sep (escList d) true = false := by
  induction d with
  | nil => rfl
  | cons c rest ih =>
    by_cases hc : c = '"'
    · simp [escList, hasUnquotedSep, hc, ih]
    · by_cases hs : c = sep
      · subst hs
        simp [escList, hasUnquotedSep, hc, ih]
      · simp [escList, hasUnquotedSep, hc, hs, ih]

/-- The quoted, escaped details column is a well-formed CSV piece for any
separator other than the quote character itself. -/
theorem detailsField_ok (sep : Char) (d : String) :
    pieceOk sep ("\"" ++ escapeQuotes d ++ "\"") := by
  have hdata : ("\"" ++ escapeQuotes d ++ "\"").data = '"' :: (escList d.data ++ ['"']) := by
    rw [String.data_append, String.data_append]
    rfl
  constructor
  · rw [hdata]
    have h1 : (( '"' : Char) == '"') = true := by simp
    simp only [hasUnquotedSep, h1, if_pos, Bool.not_false]
    rw [hasUnquotedSep_append, hasUnquotedSep_escList, quoteState_escList]
    simp [hasUnquotedSep]
  · rw [hdata]
    have h1 : (( '"' : Char) == '"') = true := by simp
    simp only [quoteState, h1, if_pos, Bool.not_false]
    rw [quoteState_append, quoteState_escList]
    simp [quoteState]

theorem quoteState_of_no_quote (xs : List Char) (q : Bool)
    (h : ∀ c ∈ xs, c ≠ '"') : quoteState xs q = q := by
  induction xs with
  | nil => rfl
  | cons c rest ih =>
    have hc := h c (List.mem_cons_self c rest)
    simp only [quoteState]
    rw [if_neg (by simpa using hc)]
    exact ih (fun c' hc' => h c' (List.mem_cons_of_mem c hc'))

theorem hasUnquotedSep_of_clean (sep : Char) (xs : List Char) (q : Bool)
    (h : ∀ c ∈ xs, c ≠ '"' ∧ c ≠ sep) : hasUnquotedSep sep xs q = false := by
  induction xs generalizing q with
  | nil => rfl
  | cons c rest ih =>
    have hc := h c (List.mem_cons_self c rest)
    simp only [hasUnquotedSep]
    rw [if_neg (by simpa using hc.1), if_neg (by simp [hc.2])]
    exact ih q (fun c' hc' => h c' (List.mem_cons_of_mem c hc'))

/-- A delimiter-free string is a well-formed CSV piece. -/
theorem cleanField_ok (sep : Char) (f : String)
    (h : ∀ c ∈ f.data, c ≠ '"' ∧ c ≠ sep) : pieceOk sep f :=
  ⟨hasUnquotedSep_of_clean sep f.data false h,
   quoteState_of_no_quote f.data false (fun c hc => (h c hc).1)⟩

/-- Joining well-formed pieces with one separator keeps the result well
formed for another separator. -/
theorem joinWith_pieceOk (sep sep2 : Char) (hss : sep ≠ sep2) (hs2 : sep ≠ '"')
    (pieces : List String) (hok : ∀ p ∈ pieces, pieceOk sep2 p) :
    pieceOk sep2 (joinWith sep pieces) := by
  induction pieces with
  | nil => exact ⟨rfl, rfl⟩
  | cons x rest ih =>
    cases rest with
    | nil => exact hok x (List.mem_cons_self x [])
    | cons y rest' =>
      have hx := hok x (List.mem_cons_self x (y :: rest'))
      have hrest := ih (fun p hp => hok p (List.mem_cons_of_mem x hp))
      constructor
      · rw [joinWith_cons₂, String.data_append, String.data_append,
          show (String.singleton sep).data = [sep] from rfl, List.append_assoc,
          hasUnquotedSep_append, hx.1]
        simp only [Bool.false_or]
        rw [hx.2]
        simp only [hasUnquotedSep]
        rw [if_neg (by simpa using hs2), if_neg (by simp [hss])]
        exact hrest.1
      · rw [joinWith_cons₂, String.data_append, String.data_append,
          show (String.singleton sep).data = [sep] from rfl, List.append_assoc,
          quoteState_append, hx.2]
        simp only [quoteState]
        rw [if_neg (by simpa using hs2)]
        exact hrest.2

theorem csvRow_eq_joinWith (e : AuditEvent) : csvRow e = joinWith ',' (csvRowFields e) := rfl

theorem rowFields_ok (sep : Char) (hsep : sep = ',' ∨ sep = '\n') (e : AuditEvent)
    (hclean : plainFieldsClean e) : ∀ f ∈ csvRowFields e, pieceOk sep f := by
  have hquote : sep ≠ '"' := by rcases hsep with h | h <;> subst h <;> decide
  have hplain : ∀ f ∈ [e.timestamp, e.eventType, e.userName, e.userLevel, e.source],
      pieceOk sep f := by
    intro f hf
    refine cleanField_ok sep f (fun c hc => ⟨(hclean f hf c hc).2.1, ?_⟩)
    rcases hsep with h | h <;> subst h
    · exact (hclean f hf c hc).1
    · exact (hclean f hf c hc).2.2
  intro f hf
  simp only [csvRowFields, List.mem_cons, List.not_mem_nil, or_false] at hf
  rcases hf with h | h | h | h | h | h | h
  · exact h ▸ hplain e.timestamp (by simp)
  · exact h ▸ hplain e.eventType (by simp)
  · exact h ▸ hplain e.userName (by simp)
  · exact h ▸ hplain e.userLevel (by simp)
  · exact h ▸ hplain e.source (by simp)
  · exact h ▸ detailsField_ok sep e.details
  · subst h
    rcases hsep with h2 | h2 <;> subst h2 <;> cases e.success <;>
      exact ⟨by decide, by decide⟩

theorem csvFields_csvRow (e : AuditEvent) (hclean : plainFieldsClean e) :
    csvFields (csvRow e) = csvRowFields e := by
  rw [csvRow_eq_joinWith, csvFields,
    parse_joinWith ',' (by decide) (csvRowFields e) (by simp [csvRowFields])
      (rowFields_ok ',' (Or.inl rfl) e hclean)]
  rw [List.map_map, show String.mk ∘ String.data = id from funext string_mk_data, List.map_id]

theorem csvRow_pieceOk_newline (e : AuditEvent) (hclean : plainFieldsClean e) :
    pieceOk '\n' (csvRow e) := by
  rw [csvRow_eq_joinWith]
  exact joinWith_pieceOk ',' '\n' (by decide) (by decide) (csvRowFields e)
    (rowFields_ok '\n' (Or.inr rfl) e hclean)

theorem csvHeader_pieceOk_newline : pieceOk '\n' csvHeader := by
  constructor <;> decide

theorem csvFields_csvHeader_length : (csvFields csvHeader).length = 7 := by decide

/-! ## Claim theorems -/

/-- C2: for every identity key, `getUserLevel` returns L0 whenever the
identity map is null, the key is absent from `verified_users`, or the matched
user's status is not `"active"`; otherwise it returns the matched user's level
— stated as equality with the spec-side `getLevelSpec`. -/
theorem c2_getUserLevel_matches_spec (identityMap : Option IdentityMap) (openId : String) :
    getUserLevel identityMap openId = getLevelSpec identityMap openId := by
  unfold getUserLevel getLevelSpec
  cases identityMap with
  | none => rfl
  | some m =>
    dsimp only
    rcases h : mapGet m.verified_users openId with _ | user
    · rfl
    · by_cases hs : user.status = "active"
      · simp [hs]
      · simp [hs]

/-- C3: `checkPermission` equals the static level×operation matrix — in which
L1 is allowed every operation and L0 only `query` — except for exactly the
three overrides L3/read_file, L2/modify_rules and L2/write_file with
`isOwnDept = true`; in particular L2 `write_file` with `isOwnDept = true` is
allowed although the base matrix denies it. -/
theorem c3_checkPermission_matrix :
    (∀ (level : PermissionLevel) (op : OperationType) (dR oD : Bool),
      checkPermission level op dR oD =
        if (level = .L3 ∧ op = .read_file ∧ oD = true) ∨
           (level = .L2 ∧ op = .modify_rules ∧ oD = true) ∨
           (level = .L2 ∧ op = .write_file ∧ oD = true)
        then true else PERMISSION_MATRIX op level) ∧
    (∀ op : OperationType, PERMISSION_MATRIX op .L1 = true) ∧
    (∀ op : OperationType, PERMISSION_MATRIX op .L0 = (op == .query)) ∧
    (∀ dR : Bool, checkPermission .L2 .write_file dR true = true) ∧
    PERMISSION_MATRIX .write_file .L2 = false := by
  refine ⟨fun level op dR oD => ?_, fun op => ?_, fun op => ?_, fun dR => ?_, rfl⟩
  · cases level <;> cases op <;> cases dR <;> cases oD <;> decide
  · cases op <;> decide
  · cases op <;> decide
  · cases dR <;> decide

/-- C8: `detectOperationType` evaluates its pattern rules in the fixed order
git, docker, system, modify_rules, send_message, write_file, read_file,
returns the operation of the first rule whose pattern matches the lowercased
message, and `query` when none matches — stated as equality with the
spec-side first-match classifier `classifySpec` over `operationRules`. -/
theorem c8_detect_first_match (message : String) :
    detectOperationType message = classifySpec message := by
  simp only [detectOperationType, classifySpec, operationRules, List.find?]
  cases h1 : matchGit (lowerChars message) <;>
  cases h2 : matchDocker (lowerChars message) <;>
  cases h3 : matchSystem (lowerChars message) <;>
  cases h4 : matchModifyRules (lowerChars message) <;>
  cases h5 : matchSendMessage (lowerChars message) <;>
  cases h6 : matchWriteFile (lowerChars message) <;>
  cases h7 : matchReadFile (lowerChars message) <;>
  simp [h1, h2, h3, h4, h5, h6, h7]

/-- C1 counterexample: in `c1Map` the claimed name `大A` belongs to an active
L1 user, yet the requester `ou_bound` — an identity key with an existing
binding — is auto-confirmed by `handleIdentityClaim` through the
existing-binding path, so the claim's "for every requester identity key,
including identity keys that already have an existing binding" is false. -/
theorem c1_counterexample :
    ((c1Map.verified_users.find?
        (fun p => p.2.name == "大A" && p.2.status == "active")).map
      (fun p => p.2.level)) = some PermissionLevel.L1 ∧
    (handleIdentityClaim c1Map "ou_bound" "大A").autoConfirmed = true ∧
    (handleIdentityClaim c1Map "ou_bound" "大A").message = "身份已确认，欢迎 Bella。" :=
  ⟨by decide, by decide, by decide⟩

/-- C1 (amended): for every requester identity key WITHOUT an existing binding
in `verified_users`, `handleIdentityClaim` refuses auto-confirmation whenever
the claimed name belongs to an active L1 user and answers with the escalation
message; a requester key that already has a binding is auto-confirmed through
the existing-binding path regardless of the claimed name. -/
theorem c1_l1_claim_refused_for_unbound (identityMap : IdentityMap)
    (openId claimedName : String) (entry : String × VerifiedUser)
    (hunbound : mapGet identityMap.verified_users openId = none)
    (hfind : identityMap.verified_users.find?
        (fun p => p.2.name == claimedName && p.2.status == "active") = some entry)
    (hL1 : entry.2.level = PermissionLevel.L1) :
    (handleIdentityClaim identityMap openId claimedName).autoConfirmed = false ∧
    (handleIdentityClaim identityMap openId claimedName).message =
      "身份声明「" ++ claimedName ++ "」已提交，等待大A确认..." := by
  unfold handleIdentityClaim
  rw [hunbound, hfind]
  simp [hL1]

/-- C1 witness: the amended theorem at `c1WitnessMap` with the unbound
requester `ou_C` claiming the administrator's name. -/
theorem c1_witness :
    mapGet c1WitnessMap.verified_users "ou_C" = none ∧
    c1WitnessMap.verified_users.find?
        (fun p => p.2.name == "大A" && p.2.status == "active") =
      some ("ou_admin", { name := "大A", level := .L1, status := "active" }) ∧
    (handleIdentityClaim c1WitnessMap "ou_C" "大A").autoConfirmed = false :=
  ⟨by decide, by decide,
    (c1_l1_claim_refused_for_unbound c1WitnessMap "ou_C" "大A"
      ("ou_admin", { name := "大A", level := .L1, status := "active" })
      (by decide) (by decide) rfl).1⟩

theorem steps2to4_frame (st : AuthState) (p : IncomingParams) (ic : Option String)
    (apiName : Option String) (now : Nat) (rand : String) :
    (handleIncomingSteps2to4 st p ic apiName now rand).2.auditLog = st.auditLog ∧
    (handleIncomingSteps2to4 st p ic apiName now rand).2.identityMap = st.identityMap := by
  unfold handleIncomingSteps2to4 addPendingPermissionRequest
  dsimp only
  repeat' split
  all_goals exact ⟨rfl, rfl⟩

/-- C4 (amended): no execution branch of `handleIncomingMessage` appends any
`AuditEvent` — the audit log (and the identity map) are unchanged by every
call, including the branches that create a `PendingPermissionRequest` or a
pending verification; escalation is surfaced only through the
`forwardToMaster`/`forwardMessage` result fields. -/
theorem c4_no_audit_append (st : AuthState) (p : IncomingParams)
    (apiName : Option String) (now : Nat) (rand : String) :
    (handleIncomingMessage st p apiName now rand).2.auditLog = st.auditLog ∧
    (handleIncomingMessage st p apiName now rand).2.identityMap = st.identityMap := by
  unfold handleIncomingMessage addPendingVerification
  dsimp only
  repeat' split
  all_goals first
    | exact ⟨rfl, rfl⟩
    | apply steps2to4_frame

/-- C4 counterexample: the `git push` message from the L2 user of `c4State`
creates a pending permission request, while the audit log stays empty — the
pending entity is created with no audit record. -/
theorem c4_counterexample :
    (handleIncomingMessage c4State c4Params none 1 "r").2.pendingRequests =
      [("perm_1_r",
        { requestId := "perm_1_r", openId := "ou_B", userName := "Bella",
          userLevel := "L2", operation := .git, originalMessage := "git push",
          sourceChannel := "飞书私聊", groupId := none, timestamp := 1 })] ∧
    c4State.auditLog = [] ∧
    (handleIncomingMessage c4State c4Params none 1 "r").2.auditLog = [] :=
  ⟨by decide, rfl, by decide⟩

/-- C5: for a requestId present in the pending tracker, resolving twice with
any approved/reason arguments yields success on the first call, success=false
with the not-found message on the second, the second call leaves the tracker
unchanged, and the tracker shrinks by exactly one across the pair. -/
theorem c5_double_resolution (pending : List (String × PendingPermissionRequest))
    (requestId : String) (req : PendingPermissionRequest) (a1 a2 : Bool)
    (r1 r2 : Option String)
    (hnodup : (pending.map Prod.fst).Nodup)
    (hfound : mapGet pending requestId = some req) :
    (handlePermissionApproval pending requestId a1 r1).1.success = true ∧
    (handlePermissionApproval (handlePermissionApproval pending requestId a1 r1).2
        requestId a2 r2).1.success = false ∧
    (handlePermissionApproval (handlePermissionApproval pending requestId a1 r1).2
        requestId a2 r2).1.message = "未找到请求: " ++ requestId ∧
    (handlePermissionApproval (handlePermissionApproval pending requestId a1 r1).2
        requestId a2 r2).2 = (handlePermissionApproval pending requestId a1 r1).2 ∧
    (handlePermissionApproval pending requestId a1 r1).2.length + 1 = pending.length := by
  have hfirst : (handlePermissionApproval pending requestId a1 r1).2 =
      mapDelete pending requestId := by
    unfold handlePermissionApproval
    rw [hfound]
    cases a1 <;> rfl
  have hsucc1 : (handlePermissionApproval pending requestId a1 r1).1.success = true := by
    unfold handlePermissionApproval
    rw [hfound]
    cases a1 <;> rfl
  have hsecond : handlePermissionApproval (mapDelete pending requestId) requestId a2 r2 =
      ({ success := false, message := "未找到请求: " ++ requestId },
        mapDelete pending requestId) := by
    unfold handlePermissionApproval
    rw [mapGet_mapDelete_self]
  refine ⟨hsucc1, ?_, ?_, ?_, ?_⟩
  · rw [hfirst, hsecond]
  · rw [hfirst, hsecond]
  · rw [hfirst, hsecond]
  · rw [hfirst]
    exact mapDelete_length pending requestId req hnodup hfound

/-- C5 witness: the double resolution on a one-entry tracker. -/
theorem c5_witness :
    ([("perm_1_x", c5Req)].map Prod.fst).Nodup ∧
    mapGet [("perm_1_x", c5Req)] "perm_1_x" = some c5Req ∧
    (handlePermissionApproval [("perm_1_x", c5Req)] "perm_1_x" true none).1.success = true ∧
    (handlePermissionApproval
        (handlePermissionApproval [("perm_1_x", c5Req)] "perm_1_x" true none).2
        "perm_1_x" false (some "deny")).1.success = false ∧
    (handlePermissionApproval [("perm_1_x", c5Req)] "perm_1_x" true none).2.length + 1 =
      [("perm_1_x", c5Req)].length :=
  ⟨by decide, by decide,
    (c5_double_resolution [("perm_1_x", c5Req)] "perm_1_x" c5Req true false none
      (some "deny") (by decide) (by decide)).1,
    (c5_double_resolution [("perm_1_x", c5Req)] "perm_1_x" c5Req true false none
      (some "deny") (by decide) (by decide)).2.1,
    (c5_double_resolution [("perm_1_x", c5Req)] "perm_1_x" c5Req true false none
      (some "deny") (by decide) (by decide)).2.2.2.2⟩

/-- C6 counterexample: with a failing `fs.appendFileSync`, `AuditLogger.log`
propagates the exception to its caller instead of returning the constructed
event — there is no local handling of a failed append. -/
theorem c6_counterexample :
    auditLoggerLog (Except.error "EACCES: permission denied") c6Event "evt_1"
        "2024-01-01T00:00:00.000Z" =
      Except.error "EACCES: permission denied" ∧
    (auditLoggerLog (Except.error "EACCES: permission denied") c6Event "evt_1"
        "2024-01-01T00:00:00.000Z").isOk = false :=
  ⟨rfl, rfl⟩

/-- C6 (amended): `AuditLogger.log` returns the constructed `AuditEvent`
exactly when the underlying append succeeds; a throwing append propagates
unchanged to the caller. -/
theorem c6_log_outcome (appendOutcome : Except String Unit) (event : AuditEventInput)
    (eventId timestamp : String) :
    (appendOutcome = Except.ok () →
      auditLoggerLog appendOutcome event eventId timestamp =
        Except.ok (buildAuditEvent event eventId timestamp)) ∧
    (∀ msg, appendOutcome = Except.error msg →
      auditLoggerLog appendOutcome event eventId timestamp = Except.error msg) := by
  constructor
  · rintro rfl
    rfl
  · rintro msg rfl
    rfl

/-- C6 witness: the amended theorem at a successful append. -/
theorem c6_witness :
    (Except.ok () : Except String Unit) = Except.ok () ∧
    auditLoggerLog (Except.ok ()) c6Event "evt_1" "2024-01-01T00:00:00.000Z" =
      Except.ok (buildAuditEvent c6Event "evt_1" "2024-01-01T00:00:00.000Z") :=
  ⟨rfl, (c6_log_outcome (Except.ok ()) c6Event "evt_1" "2024-01-01T00:00:00.000Z").1 rfl⟩

/-- C7 counterexample: run with `maxDays = 0` against a directory holding one
partition that is one day old, the sweep removes nothing — `maxDays || 30`
turns 0 into the default 30 days, so the claim "removes every partition file"
fails. -/
theorem c7_counterexample :
    cleanOldLogs (some 0) 86400000 [("2024-01-01.jsonl", 0)] =
      [("2024-01-01.jsonl", 0)] ∧
    [("2024-01-01.jsonl", (0 : Nat))] ≠ ([] : List (String × Nat)) :=
  ⟨by decide, by decide⟩

/-- C7 (amended): `maxDays = 0` behaves exactly like the default 30 days, and
a sweep whose `maxDays ≥ 1` strictly exceeds the age in days of every
partition removes none of them. -/
theorem c7_retention_sweep (maxDays now : Nat) (files : List (String × Nat))
    (hpos : 1 ≤ maxDays)
    (hage : ∀ f ∈ files, (now - f.2) / 86400000 < maxDays) :
    cleanOldLogs (some 0) now files = cleanOldLogs (some 30) now files ∧
    cleanOldLogs (some maxDays) now files = files := by
  constructor
  · rfl
  · have hall : ∀ f ∈ files,
        (!(now - f.2 > effectiveMaxDays (some maxDays) * 24 * 60 * 60 * 1000)) = true := by
      intro f hf
      have h1 : effectiveMaxDays (some maxDays) = maxDays := by
        unfold effectiveMaxDays
        have h0 : (maxDays == 0) = false := by
          simp only [beq_eq_false_iff_ne, ne_eq]
          omega
        simp [h0]
      rw [h1]
      have h2 := hage f hf
      have h3 : now - f.2 < maxDays * 86400000 :=
        (Nat.div_lt_iff_lt_mul (by norm_num)).mp h2
      simp only [Bool.not_eq_true', decide_eq_false_iff_not, gt_iff_lt, not_lt]
      omega
    unfold cleanOldLogs
    exact List.filter_eq_self.mpr hall

/-- C7 witness: a five-day window keeps a two-day-old partition. -/
theorem c7_witness :
    1 ≤ 5 ∧
    (∀ f ∈ [("a.jsonl", (0 : Nat))], (172800000 - f.2) / 86400000 < 5) ∧
    cleanOldLogs (some 5) 172800000 [("a.jsonl", 0)] = [("a.jsonl", 0)] :=
  ⟨by decide, by decide,
    (c7_retention_sweep 5 172800000 [("a.jsonl", 0)] (by decide) (by decide)).2⟩

/-- C9 counterexample: a comma inside the unquoted `userName` column makes
the exported record parse into 8 columns while the header parses into 7 —
`exportToCSV` double-quote-escapes only the `details` column, not every
free-text field, so "each record parses back into the same number of columns"
fails. -/
theorem c9_counterexample :
    (csvRecords (exportToCSV [c9CexEvent] none none none)).map
      (fun r => (csvFields r).length) = [7, 8] := by decide

/-- C9 (amended): `exportToCSV` produces one header row plus exactly one row
per event returned by `query` with the same filters, doubling the double
quotes of the `details` column; provided the unquoted columns (timestamp,
event type, user name, level, source) of every returned event contain no
comma, double quote or newline, a quote-aware CSV reader recovers exactly
those records and each record parses into 7 columns. -/
theorem c9_export_csv_rows (store : List AuditEvent)
    (startDate endDate userId : Option String)
    (hclean : ∀ e ∈ queryEvents store
        { startDate := startDate, endDate := endDate, userId := userId },
      plainFieldsClean e) :
    csvRecords (exportToCSV store startDate endDate userId) =
      csvHeader :: (queryEvents store
        { startDate := startDate, endDate := endDate, userId := userId }).map csvRow ∧
    (csvRecords (exportToCSV store startDate endDate userId)).length =
      1 + (queryEvents store
        { startDate := startDate, endDate := endDate, userId := userId }).length ∧
    ∀ r ∈ csvRecords (exportToCSV store startDate endDate userId),
      (csvFields r).length = 7 := by
  have hok : ∀ q ∈ csvHeader :: (queryEvents store
      { startDate := startDate, endDate := endDate, userId := userId }).map csvRow,
      pieceOk '\n' q := by
    intro q hq
    rcases List.mem_cons.mp hq with h | h
    · exact h ▸ csvHeader_pieceOk_newline
    · obtain ⟨e, he, rfl⟩ := List.mem_map.mp h
      exact csvRow_pieceOk_newline e (hclean e he)
  have hrecords : csvRecords (exportToCSV store startDate endDate userId) =
      csvHeader :: (queryEvents store
        { startDate := startDate, endDate := endDate, userId := userId }).map csvRow := by
    unfold exportToCSV csvRecords
    rw [parse_joinWith '\n' (by decide) _ (by simp) hok]
    rw [List.map_map, show String.mk ∘ String.data = id from funext string_mk_data,
      List.map_id]
  refine ⟨hrecords, ?_, ?_⟩
  · rw [hrecords]
    simp [Nat.add_comm]
  · intro r hr
    rw [hrecords] at hr
    rcases List.mem_cons.mp hr with h | h
    · rw [h]
      exact csvFields_csvHeader_length
    · obtain ⟨e, he, rfl⟩ := List.mem_map.mp h
      rw [csvFields_csvRow e (hclean e he)]
      rfl

/-- C9 witness: the amended theorem on a one-event store whose details contain
quotes and commas but whose unquoted columns are clean. -/
theorem c9_witness :
    (∀ e ∈ queryEvents [c9WitnessEvent]
        { startDate := none, endDate := none, userId := none },
      plainFieldsClean e) ∧
    ∀ r ∈ csvRecords (exportToCSV [c9WitnessEvent] none none none),
      (csvFields r).length = 7 :=
  ⟨by decide, (c9_export_csv_rows [c9WitnessEvent] none none none (by decide)).2.2⟩

/-- C10: `addPendingVerification` returns a freshly generated `verify_` id but
leaves the whole manager state unchanged; a later `handlePermissionApproval`
on the returned id — absent from the tracker, whose keys are `perm_` ids —
returns success=false and mutates nothing, so the identity-claim escalation
referenced by the returned id is recorded nowhere. -/
theorem c10_addPendingVerification_frame (st : AuthState)
    (params : PendingVerificationParams) (now : Nat) (rand : String)
    (approved : Bool) (reason : Option String)
    (habsent : mapGet st.pendingRequests
      (addPendingVerification st params now rand).1 = none) :
    (addPendingVerification st params now rand).2 = st ∧
    (handlePermissionApproval st.pendingRequests
        (addPendingVerification st params now rand).1 approved reason).1.success = false ∧
    (handlePermissionApproval st.pendingRequests
        (addPendingVerification st params now rand).1 approved reason).2 =
      st.pendingRequests := by
  refine ⟨rfl, ?_, ?_⟩ <;>
  · unfold handlePermissionApproval
    rw [habsent]

/-- C10 witness: the frame theorem on `c10State` with `Date.now() = 7` and
random suffix `zzz`. -/
theorem c10_witness :
    mapGet c10State.pendingRequests
      (addPendingVerification c10State
        { openId := "ou_D", claimedName := "Dan", channel := "dm" } 7 "zzz").1 = none ∧
    (addPendingVerification c10State
      { openId := "ou_D", claimedName := "Dan", channel := "dm" } 7 "zzz").2 = c10State ∧
    (handlePermissionApproval c10State.pendingRequests
        (addPendingVerification c10State
          { openId := "ou_D", claimedName := "Dan", channel := "dm" } 7 "zzz").1
        true none).1.success = false :=
  ⟨by decide,
    (c10_addPendingVerification_frame c10State
      { openId := "ou_D", claimedName := "Dan", channel := "dm" } 7 "zzz" true none
      (by decide)).1,
    (c10_addPendingVerification_frame c10State
      { openId := "ou_D", claimedName := "Dan", channel := "dm" } 7 "zzz" true none
      (by decide)).2.1⟩
